import Mathlib

/-!
Shallow embedding of the process-lifecycle engine of python-unitd
(`unitd/process.py`, `unitd/processpool.py`, `unitd/config.py`).

Commands reach the engine as argument vectors: a command spec that is a
string is first split by the external `shlex.split` library routine, so
every property below quantifies over the resulting argv list.

Child processes, the passwd database and the platform signal table are
external to the program; they are modelled as oracles passed in
explicitly.  Python exceptions are modelled with `Except String`, the
error string naming the exception class raised by the interpreter.
-/

namespace Unitd

/-- An argument vector (the result of `shlex.split`, or a literal list). -/
abbrev Argv := List String

/-- Python `s.lstrip(flags)`: remove from the start of `s` every character
that occurs in the string `flags`. -/
def lstripChars (s flags : String) : String :=
  String.mk (s.toList.dropWhile (fun c => flags.toList.contains c))

/-- The leading run of characters of `s` drawn from `flags` — the exact
characters that `lstripChars` removes. -/
def leadingFlags (s flags : String) : String :=
  String.mk (s.toList.takeWhile (fun c => flags.toList.contains c))

/-- Embedding of `Process._parse_cmdline` (process.py lines 95-116) applied to an
already-split command line.  `cmdline[0]` on an empty list raises
`IndexError`, modelled as `none`.  Note the source computes the returned
flag string as `cmdline[0][:len(stripped)]` — the first `len(stripped)`
characters of the original token — not the characters it stripped. -/
def parse_cmdline (cmdline : Argv) (flags : String) : Option (Argv × String) :=
  match cmdline with
  | [] => none
  | c0 :: rest =>
    let stripped := lstripChars c0 flags
    if stripped = c0 then
      some (c0 :: rest, "")
    else
      some (stripped :: rest, String.mk (c0.toList.take stripped.length))

/-- Outcome oracle for spawned children: given the index of the spawn (how
many children this unit has spawned before) and the argv passed to
`create_subprocess_exec`, `none` models a spawn failure (the exec raises)
and `some c` a successful spawn whose child eventually exits with code `c`
(negative = killed by that signal, per the waitpid convention). -/
def SpawnOracle := Nat → Argv → Option Int

/-- State of the `terminated` attribute: in the source it is `None` until
`_start` runs, then an unresolved future/task, then resolved with the exit
code (`OneshotProcess` can resolve it with Python `None` when no command
ran, hence the inner `Option Int`). -/
inductive TermFut
  | pending
  | resolved (code : Option Int)
deriving DecidableEq, Repr

/-- Observable state of one `Process` object.  `started`/`stopped` are
one-shot futures (`none` = unresolved); `startedSets` counts calls to
`started.set_result`; `ran` logs, in order, every argv successfully
spawned; `signals` logs every `(target, signum)` delivered by
`proc.send_signal` (which signals the child's positive pid). -/
structure ProcState where
  spawnCount : Nat
  lastExitCode : Option Int
  ran : List Argv
  started : Option Bool
  startedSets : Nat
  terminated : Option TermFut
  stopped : Option Bool
  signals : List (Int × Int)
  /-- Whether `self.logger.start(proc)` has ever run, i.e. the logger's
  `stdout_logger`/`stderr_logger` attributes are no longer `None`;
  `ProcessLogger.stop` raises `AttributeError` when they are. -/
  loggerStarted : Bool
deriving DecidableEq, Repr

/-- Embedding of `Process.__init__` (process.py lines 61-72): `started` and `stopped`
are fresh unresolved futures, `terminated` is `None`, `_last_exit_code` is
`None`. -/
def initState : ProcState :=
  { spawnCount := 0, lastExitCode := none, ran := [], started := none,
    startedSets := 0, terminated := none, stopped := none, signals := [],
    loggerStarted := false }

/-- Resolution `started.set_result(b)` followed by `return b` in `Process.start`. -/
def setStarted (st : ProcState) (b : Bool) : ProcState :=
  { st with started := some b, startedSets := st.startedSets + 1 }

/-- Embedding of `Process.exec_wait` (process.py lines 118-144): parse the command line
stripping `-` flags, spawn, wait, record `_last_exit_code`, and report
success when `"-" in flags` or the exit code is 0.  A spawn failure
propagates as an exception. -/
def exec_wait (w : SpawnOracle) (st : ProcState) (cmdline : Argv) :
    Except String Bool × ProcState :=
  match parse_cmdline cmdline "-" with
  | none => (.error "IndexError", st)
  | some (args, flags) =>
    match w st.spawnCount args with
    | none => (.error "SpawnFailed", st)
    | some code =>
      let st' : ProcState :=
        { st with spawnCount := st.spawnCount + 1,
                  lastExitCode := some code,
                  ran := st.ran ++ [args],
                  loggerStarted := true }
      if flags.toList.contains '-' then (.ok true, st')
      else (.ok (decide (code = 0)), st')

/-- Embedding of `Process._run_sync_commands` (process.py lines 146-154): run the
commands in order, stopping at the first that reports failure. -/
def run_sync_commands (w : SpawnOracle) (st : ProcState) :
    List Argv → Except String Bool × ProcState
  | [] => (.ok true, st)
  | cmd :: rest =>
    match exec_wait w st cmd with
    | (.error e, st') => (.error e, st')
    | (.ok true, st') => run_sync_commands w st' rest
    | (.ok false, st') => (.ok false, st')

/-- The fields of `config.Service` (config.py lines 163-177) that the
lifecycle engine reads.  Exec lists hold already-split argvs. -/
structure Service where
  exec_start : List Argv
  exec_start_pre : List Argv
  exec_start_post : List Argv
  exec_stop : List Argv
  exec_stop_post : List Argv
  kill_mode : String
  kill_signal : Int
  send_sigkill : Bool
deriving DecidableEq, Repr

/-- The two concrete `Process` subclasses. -/
inductive Variant
  | oneshot
  | simple
deriving DecidableEq, Repr

/-- Environment for `SimpleProcess._start`: whether `proc.returncode` was
already set (the child had exited) when the `_confirm_start` /
`proc.wait()` race was decided. -/
structure SimpleEnv where
  earlyExited : Bool
deriving DecidableEq, Repr

/-- Embedding of `OneshotProcess._start` (process.py lines 250-263): create the
`terminated` future, run every `exec_start` entry with
`_run_sync_commands`, and in a `finally` block resolve `terminated` with
`_last_exit_code` — even when a spawn raised. -/
def oneshotStart (w : SpawnOracle) (cfg : Service) (st : ProcState) :
    Except String Bool × ProcState :=
  let st0 := { st with terminated := some .pending }
  match run_sync_commands w st0 cfg.exec_start with
  | (.error e, s) => (.error e, { s with terminated := some (.resolved s.lastExitCode) })
  | (.ok b, s) => (.ok b, { s with terminated := some (.resolved s.lastExitCode) })

/-- Embedding of `SimpleProcess.__init__` + `SimpleProcess._start` (process.py lines
275-316): `__init__` requires exactly one `exec_start` entry and parses it
with flag set `"-+@"`; `_start` spawns that argv, races `_confirm_start`
(which completes immediately) against `proc.wait()`, returns `False` when
the child has already exited, and in a `finally` block stores the
`proc.wait()` task as `terminated`.  The `__init__`-time errors (wrong
entry count, empty argv) are surfaced here since in the source the object
cannot be constructed at all. -/
def simpleStart (w : SpawnOracle) (se : SimpleEnv) (cfg : Service) (st : ProcState) :
    Except String Bool × ProcState :=
  match cfg.exec_start with
  | [c] =>
    match parse_cmdline c "-+@" with
    | none => (.error "IndexError", st)
    | some (args, _flags) =>
      match w st.spawnCount args with
      | none => (.error "SpawnFailed", st)
      | some code =>
        let st1 : ProcState :=
          { st with spawnCount := st.spawnCount + 1, ran := st.ran ++ [args],
                    loggerStarted := true }
        if se.earlyExited then
          (.ok false, { st1 with terminated := some (.resolved (some code)) })
        else
          (.ok true, { st1 with terminated := some .pending })
  | _ => (.error "RuntimeError", st)

/-- Dispatch of the `_start` hook to the concrete subclass. -/
def hookStart (v : Variant) (w : SpawnOracle) (se : SimpleEnv) (cfg : Service)
    (st : ProcState) : Except String Bool × ProcState :=
  match v with
  | .oneshot => oneshotStart w cfg st
  | .simple => simpleStart w se cfg st

/-- Embedding of `Process.start` (process.py lines 172-196): run `exec_start_pre`, then
`_start`, then `exec_start_post`; the first phase that fails resolves
`started` with `False` and returns; otherwise `started` resolves with
`True`.  A raised exception propagates with `started` untouched. -/
def start (v : Variant) (w : SpawnOracle) (se : SimpleEnv) (cfg : Service)
    (st : ProcState) : Except String Bool × ProcState :=
  match run_sync_commands w st cfg.exec_start_pre with
  | (.error e, s) => (.error e, s)
  | (.ok false, s) => (.ok false, setStarted s false)
  | (.ok true, s) =>
    match hookStart v w se cfg s with
    | (.error e, s1) => (.error e, s1)
    | (.ok false, s1) => (.ok false, setStarted s1 false)
    | (.ok true, s1) =>
      match run_sync_commands w s1 cfg.exec_start_post with
      | (.error e, s2) => (.error e, s2)
      | (.ok false, s2) => (.ok false, setStarted s2 false)
      | (.ok true, s2) => (.ok true, setStarted s2 true)

/-- Environment for `Process._kill`: the child's pid (as held by
`self.proc`) and the results of the two bounded `proc.wait()` calls —
`none` when `asyncio.wait_for` timed out, `some c` when the child exited
with code `c` within `timeout_stop_sec`. -/
structure KillEnv where
  pid : Int
  wait1 : Option Int
  wait2 : Option Int
deriving DecidableEq, Repr

/-- Embedding of `Process._kill` (process.py lines 209-246): raise `RuntimeError` when
`started` is unresolved; return at once when `terminated` is already done
or `kill_mode == "none"`; otherwise deliver `kill_signal` with
`proc.send_signal` — which signals the child's own (positive) pid for
every kill mode — wait up to `timeout_stop_sec`, and when that times out
and `send_sigkill` is set deliver SIGKILL (9) the same way and wait once
more.  When `terminated` is the Python `None` attribute (no `_start` ever
ran), `self.terminated.done()` raises `AttributeError`.  The whole body
after the `RuntimeError` check sits in a `try` whose `finally` calls
`self.logger.stop()`, which itself raises `AttributeError` (replacing any
exception from the body) when no child was ever attached to the logger. -/
def pkill (cfg : Service) (ke : KillEnv) (st : ProcState) :
    Except String Unit × ProcState :=
  if st.started = none then (.error "RuntimeError", st)
  else
    let tryResult : Except String Unit × ProcState :=
      match st.terminated with
      | none => (.error "AttributeError", st)
      | some (.resolved _) => (.ok (), st)
      | some .pending =>
        if cfg.kill_mode = "none" then (.ok (), st)
        else
          let st1 := { st with signals := st.signals ++ [(ke.pid, cfg.kill_signal)] }
          match ke.wait1 with
          | some c => (.ok (), { st1 with terminated := some (.resolved (some c)) })
          | none =>
            if cfg.send_sigkill then
              let st2 := { st1 with signals := st1.signals ++ [(ke.pid, 9)] }
              match ke.wait2 with
              | some c => (.ok (), { st2 with terminated := some (.resolved (some c)) })
              | none => (.ok (), st2)
            else (.ok (), st1)
    if st.loggerStarted then tryResult
    else (.error "AttributeError", tryResult.2)

/-- Embedding of `Process.stop` (process.py lines 198-207): run `exec_stop` only when
`started` resolved true, then `_kill`, then `exec_stop_post`, then resolve
`stopped` with `True`.  Any exception propagates, leaving `stopped`
unresolved. -/
def stop (w : SpawnOracle) (ke : KillEnv) (cfg : Service) (st : ProcState) :
    Except String Unit × ProcState :=
  let step1 : Except String Unit × ProcState :=
    if st.started = some true then
      match run_sync_commands w st cfg.exec_stop with
      | (.error e, s) => (.error e, s)
      | (.ok _, s) => (.ok (), s)
    else (.ok (), st)
  match step1 with
  | (.error e, s) => (.error e, s)
  | (.ok (), s) =>
    match pkill cfg ke s with
    | (.error e, s1) => (.error e, s1)
    | (.ok (), s1) =>
      match run_sync_commands w s1 cfg.exec_stop_post with
      | (.error e, s2) => (.error e, s2)
      | (.ok _, s2) => (.ok (), { s2 with stopped := some true })

/-- Observable state of a `ProcessPool` (processpool.py lines 8-16).
Managed units are identified by abstract handles (`Nat`); `quit_signal`
is `none` until `set_quit_signal` installs the future, then `some fired`.
`startedUnits` logs, in order, every unit whose `start()` the pool
awaited. -/
structure PoolState where
  quit_signal : Option Bool
  success : Bool
  processes : List Nat
  startedUnits : List Nat
deriving DecidableEq, Repr

/-- Embedding of `ProcessPool.start_sync` (processpool.py lines 22-37): skip and return
`False` when a previous start failed or the quit signal already fired;
otherwise await `process.start()` (whose boolean outcome is the `res`
argument), clear `success` on failure, append the process to the managed
list, and return `self.success`.  When `set_quit_signal` was never called,
`self.quit_signal.done()` raises `AttributeError` on Python `None`. -/
def start_sync (pool : PoolState) (p : Nat) (res : Bool) :
    Except String (Bool × PoolState) :=
  if pool.success = false then .ok (false, pool)
  else
    match pool.quit_signal with
    | none => .error "AttributeError"
    | some fired =>
      if fired then .ok (false, pool)
      else
        let pool1 := { pool with startedUnits := pool.startedUnits ++ [p] }
        let pool2 := if res then pool1 else { pool1 with success := false }
        let pool3 := { pool2 with processes := pool2.processes ++ [p] }
        .ok (pool3.success, pool3)

/-- Python `int(s)`: strip surrounding whitespace, accept an optional
sign followed by one or more decimal digits; anything else raises
`ValueError` (`none`). -/
def parseIntPy (s : String) : Option Int :=
  let t := (s.toList.dropWhile Char.isWhitespace).reverse.dropWhile Char.isWhitespace
  let t := t.reverse
  let core : List Char → Option Nat := fun ds =>
    if ds ≠ [] ∧ ds.all Char.isDigit then
      some (ds.foldl (fun a c => a * 10 + (c.toNat - 48)) 0)
    else none
  match t with
  | '-' :: ds => (core ds).map (fun n => -(n : Int))
  | '+' :: ds => (core ds).map (fun n => (n : Int))
  | ds => (core ds).map (fun n => (n : Int))

/-- Whether Python `re.match("^[A-Z]+^", s)` succeeds: some match of the
pattern must start at position 0, consuming `k ≥ 1` uppercase letters and
then satisfying the second `^` anchor, which (without `re.MULTILINE`)
only holds at position 0 — so the pattern requires `k ≥ 1` and `k = 0` at
once. -/
def matches_upper_anchor (s : String) : Bool :=
  (List.range (s.length + 1)).any (fun k =>
    decide (1 ≤ k) && (s.toList.take k).all (fun c => 'A' ≤ c && c ≤ 'Z')
      && decide (k = 0))

/-- Embedding of `Parser.parse_signal` (config.py lines 94-104): when the (buggy)
symbolic-name regex matches, resolve the name through the platform signal
table (`getattr(signal, s, None)`, passed as an oracle) or raise a parse
error; otherwise try `int(s)` and raise a parse error on `ValueError`. -/
def parse_signal (table : String → Option Int) (s : String) : Except String Int :=
  if matches_upper_anchor s then
    match table s with
    | none => .error "ParseError"
    | some n => .ok n
  else
    match parseIntPy s with
    | some n => .ok n
    | none => .error "ParseError"

/-- The `WorkingDirectory == "~"` branch of `Service.postprocess`
(config.py lines 214-221), with the passwd database as an oracle mapping a
uid to its home directory.  When the lookup raises `KeyError`, the
`except` clause logs a warning and sets `working_directory = None`, but
the assignment `self.working_directory = p.pw_dir` that follows the
`try`/`except` dereferences the never-bound local `p`, raising
`UnboundLocalError`. -/
def postprocess_wd (pwdLookup : Int → Option String)
    (working_directory : Option String) (user : Int) :
    Except String (Option String) :=
  if working_directory = some "~" then
    match pwdLookup user with
    | some dir => .ok (some dir)
    | none => .error "UnboundLocalError"
  else .ok working_directory

/-! ## Concrete instances used by the theorems below -/

/-- A fragment of the Linux signal table, standing in for
`getattr(signal, name, None)`. -/
def sigTableLinux : String → Option Int := fun s =>
  if s = "SIGTERM" then some 15
  else if s = "SIGKILL" then some 9
  else if s = "SIGINT" then some 2
  else none

/-- A passwd database with no entries, standing in for a failed
`pwd.getpwuid` lookup. -/
def pwdEmpty : Int → Option String := fun _ => none

/-- Configuration of scenario "pre-hook failure": one failing pre-hook,
one main command, one stop and one stop-post hook. -/
def cfgPreFail : Service :=
  { exec_start := [["/bin/true"]], exec_start_pre := [["/bin/false"]],
    exec_start_post := [], exec_stop := [["stop-hook"]],
    exec_stop_post := [["cleanup-hook"]],
    kill_mode := "control-group", kill_signal := 15, send_sigkill := true }

/-- A world in which every child exits with code 1. -/
def wFail : SpawnOracle := fun _ _ => some 1

/-- Oneshot configuration with two entries, `["a"]` and `["b"]`. -/
def cfgTwo : Service :=
  { exec_start := [["a"], ["b"]], exec_start_pre := [], exec_start_post := [],
    exec_stop := [], exec_stop_post := [],
    kill_mode := "control-group", kill_signal := 15, send_sigkill := true }

/-- A world in which command `["a"]` exits 1 and every other command
(in particular `["b"]`) exits 0. -/
def wAB : SpawnOracle := fun _ a => if a = ["a"] then some 1 else some 0

/-- A started simple unit whose main child (pid 100) is still running. -/
def stRunning : ProcState :=
  { initState with started := some true, terminated := some .pending,
                   loggerStarted := true }

/-- Configuration with `kill_mode` set to `control-group`, used against the kill step. -/
def cfgCG : Service :=
  { exec_start := [], exec_start_pre := [], exec_start_post := [],
    exec_stop := [], exec_stop_post := [],
    kill_mode := "control-group", kill_signal := 15, send_sigkill := true }

/-- Configuration with `kill_mode` set to `process`, used as the witness for the kill step. -/
def cfgProc : Service :=
  { exec_start := [], exec_start_pre := [], exec_start_post := [],
    exec_stop := [], exec_stop_post := [],
    kill_mode := "process", kill_signal := 2, send_sigkill := true }

/-- A world in which every child exits with code 5. -/
def wFive : SpawnOracle := fun _ _ => some 5

/-- The state reached after `start()` of `cfgPreFail` under `wFail`:
the failing pre-hook ran, `started` resolved `False`, `terminated` still
the Python `None`. -/
def stPreFail : ProcState := (start .oneshot wFail ⟨false⟩ cfgPreFail initState).2

/-- The state after running just the (failing) pre-hook phase of
`cfgPreFail` under `wFail`. -/
def sPre : ProcState :=
  { spawnCount := 1, lastExitCode := some 1, ran := [["/bin/false"]],
    started := none, startedSets := 0, terminated := none, stopped := none,
    signals := [], loggerStarted := true }

/-- The state after the `exec_start` phase of `cfgTwo` under `wAB`:
entry `["a"]` ran and exited 1, entry `["b"]` never ran. -/
def sAB : ProcState :=
  { spawnCount := 1, lastExitCode := some 1, ran := [["a"]],
    started := none, startedSets := 0, terminated := some .pending,
    stopped := none, signals := [], loggerStarted := true }

/-! ## Helper lemmas -/

theorem takeWhile_nil_of_dropWhile_eq_self {p : Char → Bool} {l : List Char}
    (h : l.dropWhile p = l) : l.takeWhile p = [] := by
  have hlen := congrArg List.length (List.takeWhile_append_dropWhile p l)
  rw [h, List.length_append] at hlen
  exact List.eq_nil_of_length_eq_zero (by omega)

theorem head_sat_of_dropWhile_ne_self {p : Char → Bool} {l : List Char}
    (h : l.dropWhile p ≠ l) : ∃ x xs, l = x :: xs ∧ p x = true := by
  cases l with
  | nil => simp at h
  | cons x xs =>
    by_cases hx : p x
    · exact ⟨x, xs, rfl, hx⟩
    · rw [List.dropWhile_cons, if_neg hx] at h
      exact absurd rfl h

theorem exec_wait_fields (w : SpawnOracle) (st : ProcState) (c : Argv) :
    (exec_wait w st c).2.started = st.started ∧
    (exec_wait w st c).2.startedSets = st.startedSets ∧
    (exec_wait w st c).2.terminated = st.terminated := by
  unfold exec_wait
  cases hp : parse_cmdline c "-" with
  | none => simp [hp]
  | some pr =>
    obtain ⟨args, flags⟩ := pr
    cases hw : w st.spawnCount args with
    | none => simp [hp, hw]
    | some code =>
      by_cases hf : '-' ∈ flags.data <;> simp [hp, hw, hf]

theorem run_sync_fields (w : SpawnOracle) (cmds : List Argv) :
    ∀ st : ProcState,
    (run_sync_commands w st cmds).2.started = st.started ∧
    (run_sync_commands w st cmds).2.startedSets = st.startedSets ∧
    (run_sync_commands w st cmds).2.terminated = st.terminated := by
  induction cmds with
  | nil => intro st; simp [run_sync_commands]
  | cons cmd rest ih =>
    intro st
    unfold run_sync_commands
    have hf := exec_wait_fields w st cmd
    cases he : exec_wait w st cmd with
    | mk r st1 =>
      rw [he] at hf
      cases r with
      | error e => simpa using hf
      | ok b =>
        cases b with
        | false => simpa using hf
        | true =>
          have hrest := ih st1
          simp only at hf ⊢
          exact ⟨hrest.1.trans hf.1, hrest.2.1.trans hf.2.1, hrest.2.2.trans hf.2.2⟩

theorem hookStart_fields (v : Variant) (w : SpawnOracle) (se : SimpleEnv)
    (cfg : Service) (st : ProcState) :
    (hookStart v w se cfg st).2.started = st.started ∧
    (hookStart v w se cfg st).2.startedSets = st.startedSets := by
  cases v with
  | oneshot =>
    unfold hookStart oneshotStart
    have hf := run_sync_fields w cfg.exec_start { st with terminated := some .pending }
    cases hr : run_sync_commands w { st with terminated := some .pending } cfg.exec_start with
    | mk r s =>
      rw [hr] at hf
      cases r <;> (simp only [hr]; simpa using ⟨hf.1, hf.2.1⟩)
  | simple =>
    unfold hookStart simpleStart
    cases cfg.exec_start with
    | nil => simp
    | cons c cs =>
      cases cs with
      | cons d ds => simp
      | nil =>
        cases hp : parse_cmdline c "-+@" with
        | none => simp [hp]
        | some pr =>
          obtain ⟨args, flags⟩ := pr
          cases hw : w st.spawnCount args with
          | none => simp [hp, hw]
          | some code => by_cases he : se.earlyExited <;> simp [hp, hw, he]

theorem exec_wait_cases (w : SpawnOracle) (st : ProcState) (c : Argv)
    (r : Except String Bool) (st1 : ProcState) (h : exec_wait w st c = (r, st1)) :
    (st1 = st ∧ ∃ e, r = .error e) ∨
    (∃ args code b, w st.spawnCount args = some code ∧
       st1 = { st with
                 spawnCount := st.spawnCount + 1, lastExitCode := (some code),
                 ran := st.ran ++ [args], loggerStarted := true } ∧ r = .ok b) := by
  unfold exec_wait at h
  cases hp : parse_cmdline c "-" with
  | none =>
    rw [hp] at h
    injection h with h1 h2
    exact Or.inl ⟨h2.symm, _, h1.symm⟩
  | some pr =>
    obtain ⟨args, flags⟩ := pr
    rw [hp] at h
    dsimp only at h
    cases hw : w st.spawnCount args with
    | none =>
      rw [hw] at h
      injection h with h1 h2
      exact Or.inl ⟨h2.symm, _, h1.symm⟩
    | some code =>
      rw [hw] at h
      dsimp only at h
      by_cases hf : flags.toList.contains '-'
      · rw [if_pos hf] at h
        injection h with h1 h2
        exact Or.inr ⟨args, code, true, hw, h2.symm, h1.symm⟩
      · rw [if_neg hf] at h
        injection h with h1 h2
        exact Or.inr ⟨args, code, _, hw, h2.symm, h1.symm⟩

theorem run_sync_lastExit (w : SpawnOracle) (cmds : List Argv) :
    ∀ (st : ProcState) (r : Except String Bool) (st' : ProcState),
      run_sync_commands w st cmds = (r, st') →
      (st'.ran = st.ran ∧ st'.lastExitCode = st.lastExitCode) ∨
      (∃ l a code, st'.ran = st.ran ++ l ++ [a] ∧
         w (st.spawnCount + l.length) a = some code ∧
         st'.lastExitCode = some code) := by
  induction cmds with
  | nil =>
    intro st r st' h
    simp only [run_sync_commands] at h
    injection h with h1 h2
    subst h2
    exact Or.inl ⟨rfl, rfl⟩
  | cons cmd rest ih =>
    intro st r st' h
    unfold run_sync_commands at h
    cases he : exec_wait w st cmd with
    | mk r0 st1 =>
      rw [he] at h
      rcases exec_wait_cases w st cmd r0 st1 he with ⟨hst, e, hr0⟩ | ⟨args, code, b, hw, hst1, hr0⟩
      · subst hr0
        injection h with h1 h2
        subst h2
        subst hst
        exact Or.inl ⟨rfl, rfl⟩
      · subst hr0
        cases b with
        | false =>
          injection h with h1 h2
          subst h2
          subst hst1
          exact Or.inr ⟨[], args, code, by simp, by simpa using hw, rfl⟩
        | true =>
          rcases ih st1 r st' h with ⟨hr, hl⟩ | ⟨l, a, code2, h1, h2, h3⟩
          · subst hst1
            refine Or.inr ⟨[], args, code, ?_, by simpa using hw, ?_⟩
            · simpa using hr
            · simpa using hl
          · subst hst1
            refine Or.inr ⟨args :: l, a, code2, ?_, ?_, h3⟩
            · simpa [List.append_assoc] using h1
            · have hidx : st.spawnCount + 1 + l.length
                  = st.spawnCount + (args :: l).length := by
                simp
                omega
              rw [← hidx]
              simpa using h2

/-! ## Claim theorems -/

/-- C2 (code bug): after a `start()` that failed in the pre-hook phase
(`started` resolved `False`, no `_start`, so `terminated` is still the
Python `None`), `stop()` does skip `exec_stop`, but `_kill` dereferences
`self.terminated.done()` on `None` and raises `AttributeError`; the
`exec_stop_post` commands never run and `stopped` never resolves —
contradicting the claim that `stop()` resolves `stopped=true` and runs
the `exec_stop_post` commands. -/
theorem C2_stop_after_failed_pre_raises :
    (start .oneshot wFail ⟨false⟩ cfgPreFail initState).1 = .ok false ∧
    stPreFail.started = some false ∧
    stPreFail.terminated = none ∧
    stop wFail ⟨100, none, none⟩ cfgPreFail stPreFail
      = (.error "AttributeError", stPreFail) ∧
    (stop wFail ⟨100, none, none⟩ cfgPreFail stPreFail).2.stopped = none ∧
    (stop wFail ⟨100, none, none⟩ cfgPreFail stPreFail).2.ran = [["/bin/false"]] :=
  ⟨rfl, rfl, rfl, rfl, rfl, rfl⟩

/-- C3 (counterexample): for the Oneshot unit with
`exec_start = [["a"], ["b"]]` where `["a"]` exits 1 and `["b"]` exits 0,
entry `["b"]` is never run and `terminated` resolves to 1 — the failing
entry's exit code — not to the exit code 0 of the last `exec_start`
entry, refuting the claim as stated. -/
theorem C3_terminated_not_last_entry :
    (start .oneshot wAB ⟨false⟩ cfgTwo initState).1 = .ok false ∧
    (start .oneshot wAB ⟨false⟩ cfgTwo initState).2.terminated
      = some (.resolved (some 1)) ∧
    (start .oneshot wAB ⟨false⟩ cfgTwo initState).2.ran = [["a"]] ∧
    wAB 1 ["b"] = some 0 ∧
    (some (1 : Int)) ≠ (some (0 : Int)) :=
  ⟨rfl, rfl, rfl, rfl, by decide⟩

/-- C4 (counterexample): with `kill_mode = "control-group"` and a running
main child of pid 100, the kill step delivers `kill_signal` via
`proc.send_signal`, which targets the positive pid 100; no signal is ever
sent to the process group `-100`, refuting the claim that the
control-group mode signals the negative pid. -/
theorem C4_control_group_signals_pid :
    (pkill cfgCG ⟨100, some 0, none⟩ stRunning).2.signals = [(100, 15)] ∧
    ((-100, 15) ∉ (pkill cfgCG ⟨100, some 0, none⟩ stRunning).2.signals) ∧
    ((100 : Int), (15 : Int)) ≠ ((-100 : Int), (15 : Int)) :=
  ⟨rfl, by decide, by decide⟩

/-- C6 (code bug): the symbolic-name branch of `parse_signal` is guarded
by the regex `^[A-Z]+^`, which matches no string at all, so a symbolic
name such as `"SIGTERM"` — present in the platform signal table with
value 15 — falls through to `int(s)` and raises a parse error instead of
returning 15; decimal strings still parse. -/
theorem C6_symbolic_signal_rejected :
    (∀ s : String, matches_upper_anchor s = false) ∧
    parse_signal sigTableLinux "SIGTERM" = .error "ParseError" ∧
    sigTableLinux "SIGTERM" = some 15 ∧
    parse_signal sigTableLinux "15" = .ok 15 := by
  refine ⟨?_, rfl, rfl, rfl⟩
  intro s
  unfold matches_upper_anchor
  rw [List.any_eq_false]
  intro k _hk
  cases k with
  | zero => simp
  | succ n => simp

/-- C7 (code bug): `_parse_cmdline` strips the leading flag characters
from the first token, but the flag string it returns is
`cmdline[0][:len(stripped)]` — the first `len(stripped)` characters of
the original token — not the stripped characters: on a first token that
is a dash followed by the ten characters of `/bin/false`, with flag set
the single dash, the stripped leading flags are exactly the dash, yet the
function returns the first ten characters of the original token. -/
theorem C7_flags_not_stripped_chars :
    parse_cmdline ["-/bin/false"] "-" = some (["/bin/false"], "-/bin/fals") ∧
    leadingFlags "-/bin/false" "-" = "-" ∧
    ("-/bin/fals" : String) ≠ "-" :=
  ⟨rfl, rfl, by decide⟩

/-- C9 (code bug): when `WorkingDirectory` is `"~"` and the passwd lookup
for the configured user fails, `postprocess` assigns
`working_directory = None` in the `except` clause but then unconditionally
executes `self.working_directory = p.pw_dir` with `p` never bound,
raising `UnboundLocalError` — it does not fall back to the supervisor's
cwd with a warning. -/
theorem C9_postprocess_raises_on_missing_passwd :
    postprocess_wd pwdEmpty (some "~") 12345 = .error "UnboundLocalError" ∧
    postprocess_wd (fun _ => some "/home/u") (some "~") 12345
      = .ok (some "/home/u") :=
  ⟨rfl, rfl⟩

/-- C1: for every command spec run by `exec_wait` whose spawn succeeds
(i.e. whose stripped first token is a runnable program — in particular it
is not the empty string, which can never be spawned), the run reports
success if and only if the child's exit code is 0 or the flag characters
stripped from the first token contain the dash. -/
theorem C1_exec_wait_success_iff (w : SpawnOracle) (st : ProcState) (c0 : String)
    (rest : Argv) (code : Int)
    (hspawn : w st.spawnCount (lstripChars c0 "-" :: rest) = some code)
    (hprog : lstripChars c0 "-" ≠ "" ∨ lstripChars c0 "-" = c0) :
    (exec_wait w st (c0 :: rest)).1 = .ok true ↔
      (code = 0 ∨ '-' ∈ (leadingFlags c0 "-").toList) := by
  by_cases hcase : lstripChars c0 "-" = c0
  · have hdrop : c0.toList.dropWhile (fun c => ("-".toList).contains c) = c0.toList :=
      congrArg String.toList hcase
    have hlead : (leadingFlags c0 "-").toList = [] :=
      takeWhile_nil_of_dropWhile_eq_self hdrop
    have hp : parse_cmdline (c0 :: rest) "-" = some (c0 :: rest, "") := by
      simp [parse_cmdline, hcase]
    rw [hcase] at hspawn
    unfold exec_wait
    rw [hp]
    dsimp only
    rw [hspawn]
    dsimp only
    rw [if_neg (by decide)]
    rw [hlead]
    simp
  · have hne : lstripChars c0 "-" ≠ "" := by
      rcases hprog with h | h
      · exact h
      · exact absurd h hcase
    have hdropne : c0.toList.dropWhile (fun c => ("-".toList).contains c) ≠ c0.toList := by
      intro hdrop
      apply hcase
      show String.mk (c0.toList.dropWhile (fun c => ("-".toList).contains c)) = c0
      rw [hdrop]
      exact rfl
    obtain ⟨x, xs, hx, hpx⟩ := head_sat_of_dropWhile_ne_self hdropne
    have hxdash : x = '-' := by simpa using hpx
    subst hxdash
    have hLne : c0.toList.dropWhile (fun c => ("-".toList).contains c) ≠ [] := by
      intro h0
      apply hne
      show String.mk (c0.toList.dropWhile (fun c => ("-".toList).contains c)) = ""
      rw [h0]
    obtain ⟨y, ys, hY⟩ := List.exists_cons_of_ne_nil hLne
    have hlen : (lstripChars c0 "-").length = ys.length + 1 := by
      show (String.mk (c0.toList.dropWhile (fun c => ("-".toList).contains c))).length
          = ys.length + 1
      rw [hY]
      exact rfl
    have hflagmem : '-' ∈ (c0.toList.take (lstripChars c0 "-").length) := by
      rw [hlen, hx, List.take_succ_cons]
      exact List.mem_cons_self _ _
    have hleadmem : '-' ∈ (leadingFlags c0 "-").toList := by
      have hmk : (leadingFlags c0 "-").toList
          = c0.toList.takeWhile (fun c => ("-".toList).contains c) := rfl
      rw [hmk, hx, List.takeWhile_cons, if_pos hpx]
      exact List.mem_cons_self _ _
    have hp : parse_cmdline (c0 :: rest) "-"
        = some (lstripChars c0 "-" :: rest,
            String.mk (c0.toList.take (lstripChars c0 "-").length)) := by
      simp [parse_cmdline, hcase]
    unfold exec_wait
    rw [hp]
    dsimp only
    rw [hspawn]
    dsimp only
    rw [if_pos (by simpa [List.elem_iff] using hflagmem)]
    simp
    exact Or.inr hleadmem

/-- C1 witness: a spec whose first token is a dash followed by `x`, with a
child exiting 5, reports success because the stripped flags contain the
dash. -/
theorem C1_exec_wait_success_iff_witness :
    wFive initState.spawnCount (lstripChars "-x" "-" :: ([] : Argv)) = some 5 ∧
    (lstripChars "-x" "-" ≠ "" ∨ lstripChars "-x" "-" = "-x") ∧
    (exec_wait wFive initState ["-x"]).1 = .ok true := by
  refine ⟨rfl, Or.inl (by decide), ?_⟩
  exact (C1_exec_wait_success_iff wFive initState "-x" [] 5 rfl
    (Or.inl (by decide))).mpr (Or.inr (by decide))

/-- C3 (amended): for a Oneshot unit whose pre-hooks succeeded, the
`terminated` future resolves to the value of `_last_exit_code` after the
`exec_start` phase — the exit code of the last entry that was actually
run (the failing entry when one fails; the inherited value when no entry
ran) — not necessarily the exit code of the last `exec_start` entry. -/
theorem C3_oneshot_terminated_last_run (w : SpawnOracle) (se : SimpleEnv)
    (cfg : Service) (sp ss : ProcState) (r : Except String Bool)
    (hpre : run_sync_commands w initState cfg.exec_start_pre = (.ok true, sp))
    (hrun : run_sync_commands w { sp with terminated := some TermFut.pending }
        cfg.exec_start = (r, ss)) :
    (start .oneshot w se cfg initState).2.terminated
        = some (.resolved ss.lastExitCode) ∧
    ((ss.ran = sp.ran ∧ ss.lastExitCode = sp.lastExitCode) ∨
     (∃ l a code, ss.ran = sp.ran ++ l ++ [a] ∧
        w (sp.spawnCount + l.length) a = some code ∧
        ss.lastExitCode = some code)) := by
  constructor
  · unfold start
    rw [hpre]
    dsimp only
    unfold hookStart oneshotStart
    dsimp only
    rw [hrun]
    cases r with
    | error e => rfl
    | ok b =>
      cases b with
      | false => rfl
      | true =>
        dsimp only
        have hf := run_sync_fields w cfg.exec_start_post
          { ss with terminated := some (TermFut.resolved ss.lastExitCode) }
        cases hq : run_sync_commands w
            { ss with terminated := some (TermFut.resolved ss.lastExitCode) }
            cfg.exec_start_post with
        | mk r2 s2 =>
          rw [hq] at hf
          cases r2 with
          | error e => simpa using hf.2.2
          | ok b2 =>
            cases b2 with
            | false => simpa [setStarted] using hf.2.2
            | true => simpa [setStarted] using hf.2.2
  · have h := run_sync_lastExit w cfg.exec_start
      { sp with terminated := some TermFut.pending } r ss hrun
    simpa using h

/-- C3 amended witness: in the two-entry Oneshot scenario the first entry
exits 1 and `terminated` resolves to that last-run exit code. -/
theorem C3_oneshot_terminated_last_run_witness :
    run_sync_commands wAB initState cfgTwo.exec_start_pre = (.ok true, initState) ∧
    run_sync_commands wAB { initState with terminated := some TermFut.pending }
        cfgTwo.exec_start = (.ok false, sAB) ∧
    (start .oneshot wAB ⟨false⟩ cfgTwo initState).2.terminated
        = some (.resolved sAB.lastExitCode) := by
  refine ⟨rfl, rfl, ?_⟩
  exact (C3_oneshot_terminated_last_run wAB ⟨false⟩ cfgTwo initState sAB
    (.ok false) rfl rfl).1

/-- C4 (amended): for a started unit with attached logger and an existing
`terminated` future, the kill step succeeds and sends exactly these
signals, all targeting the child's own (positive) pid: none when
`terminated` is already resolved or `kill_mode` is `"none"`; otherwise
`kill_signal`, followed by SIGKILL (9) exactly when the first bounded wait
timed out and `send_sigkill` is set.  The process group (negative pid) is
never signalled, in either kill mode. -/
theorem C4_kill_signal_targets (cfg : Service) (ke : KillEnv) (st : ProcState)
    (t : TermFut) (hs : st.started ≠ none) (hl : st.loggerStarted = true)
    (ht : st.terminated = some t) :
    (pkill cfg ke st).1 = .ok () ∧
    (pkill cfg ke st).2.signals = st.signals ++
      (if t = TermFut.pending ∧ cfg.kill_mode ≠ "none" then
         (ke.pid, cfg.kill_signal) ::
           (if ke.wait1 = none ∧ cfg.send_sigkill = true then [(ke.pid, 9)] else [])
       else []) := by
  cases t with
  | resolved c => simp [pkill, hs, hl, ht]
  | pending =>
    by_cases hkm : cfg.kill_mode = "none"
    · simp [pkill, hs, hl, ht, hkm]
    · cases hw1 : ke.wait1 with
      | some c => simp [pkill, hs, hl, ht, hkm, hw1]
      | none =>
        by_cases hsk : cfg.send_sigkill
        · cases hw2 : ke.wait2 <;> simp [pkill, hs, hl, ht, hkm, hw1, hsk, hw2]
        · simp [pkill, hs, hl, ht, hkm, hw1, hsk]

/-- C4 amended witness: `kill_mode = "process"`, pid 42, both waits time
out: `kill_signal` 2 then SIGKILL are sent, both to pid 42. -/
theorem C4_kill_signal_targets_witness :
    (pkill cfgProc ⟨42, none, none⟩ stRunning).1 = .ok () ∧
    (pkill cfgProc ⟨42, none, none⟩ stRunning).2.signals = [(42, 2), (42, 9)] := by
  have h := C4_kill_signal_targets cfgProc ⟨42, none, none⟩ stRunning
    .pending (by decide) rfl rfl
  exact ⟨h.1, by rw [h.2]; rfl⟩

/-- C5: if some pre-hook fails (without the dash flag), `start()` resolves
`started=false` and the final state is exactly the post-pre-phase state
(so no `exec_start` and no `exec_start_post` command was run); likewise
if the `exec_start` phase fails, `started=false` and the final state is
exactly the post-`_start` state (so no `exec_start_post` command was
run). -/
theorem C5_phase_failure_stops_start (v : Variant) (w : SpawnOracle)
    (se : SimpleEnv) (cfg : Service) :
    (∀ sp, run_sync_commands w initState cfg.exec_start_pre = (.ok false, sp) →
       start v w se cfg initState = (.ok false, setStarted sp false) ∧
       (setStarted sp false).ran = sp.ran ∧
       (setStarted sp false).started = some false) ∧
    (∀ sp ss, run_sync_commands w initState cfg.exec_start_pre = (.ok true, sp) →
       hookStart v w se cfg sp = (.ok false, ss) →
       start v w se cfg initState = (.ok false, setStarted ss false) ∧
       (setStarted ss false).ran = ss.ran ∧
       (setStarted ss false).started = some false) := by
  constructor
  · intro sp h
    refine ⟨?_, rfl, rfl⟩
    unfold start
    rw [h]
  · intro sp ss h1 h2
    refine ⟨?_, rfl, rfl⟩
    unfold start
    rw [h1]
    dsimp only
    rw [h2]

/-- C5 witness: the failing-pre-hook scenario: `start()` returns `False`
with final state exactly the post-pre-phase state. -/
theorem C5_phase_failure_stops_start_witness :
    run_sync_commands wFail initState cfgPreFail.exec_start_pre
      = (.ok false, sPre) ∧
    start .oneshot wFail ⟨false⟩ cfgPreFail initState
      = (.ok false, setStarted sPre false) := by
  refine ⟨rfl, ?_⟩
  exact ((C5_phase_failure_stops_start .oneshot wFail ⟨false⟩ cfgPreFail).1
    sPre rfl).1

/-- C8: with a quit-signal future installed, `start_sync` skips the unit
and returns `False` when a previous start failed or the quit signal
already fired (the pool, in particular its log of started units, is
unchanged); otherwise it awaits the unit's `start()`, records the unit,
and returns exactly the start's success. -/
theorem C8_start_sync_contract (pool : PoolState) (p : Nat) (res q : Bool)
    (hq : pool.quit_signal = some q) :
    (pool.success = false → start_sync pool p res = .ok (false, pool)) ∧
    (pool.success = true → q = true → start_sync pool p res = .ok (false, pool)) ∧
    (pool.success = true → q = false →
       start_sync pool p res = .ok (res,
         { pool with
             success := res,
             startedUnits := pool.startedUnits ++ [p],
             processes := pool.processes ++ [p] })) := by
  refine ⟨?_, ?_, ?_⟩
  · intro hs
    simp [start_sync, hs]
  · intro hs hqt
    subst hqt
    simp [start_sync, hs, hq]
  · intro hs hqf
    subst hqf
    obtain ⟨qs, succ, procs, su⟩ := pool
    dsimp only at hs hq
    subst hs
    subst hq
    cases res <;> rfl

/-- C8 witness: a fresh successful pool with the quit future pending
starts unit 7 successfully and records it. -/
theorem C8_start_sync_contract_witness :
    start_sync ⟨some false, true, [], []⟩ 7 true
      = .ok (true, ⟨some false, true, [7], [7]⟩) := by
  have h := (C8_start_sync_contract ⟨some false, true, [], []⟩ 7 true false
    rfl).2.2 rfl rfl
  simpa using h

/-- C10: over every configuration, oracle and variant, when `start()`
returns normally the `started` future has been resolved exactly once and
with exactly the boolean that `start()` returns; on exception paths it is
resolved at most once (in fact never). -/
theorem C10_started_resolved_once (v : Variant) (w : SpawnOracle) (se : SimpleEnv)
    (cfg : Service) (r : Except String Bool) (st' : ProcState)
    (h : start v w se cfg initState = (r, st')) :
    (∀ b, r = .ok b → st'.startedSets = 1 ∧ st'.started = some b) ∧
    st'.startedSets ≤ 1 := by
  unfold start at h
  have hf0 := run_sync_fields w cfg.exec_start_pre initState
  cases h1 : run_sync_commands w initState cfg.exec_start_pre with
  | mk r0 s0 =>
    rw [h1] at h hf0
    dsimp only at hf0
    cases r0 with
    | error e =>
      dsimp only at h
      injection h with hr hs
      subst hr
      subst hs
      refine ⟨?_, ?_⟩
      · intro b hb
        simp at hb
      · rw [hf0.2.1]
        exact Nat.zero_le 1
    | ok b0 =>
      cases b0 with
      | false =>
        dsimp only at h
        injection h with hr hs
        subst hr
        subst hs
        refine ⟨?_, ?_⟩
        · intro b hb
          injection hb with hb2
          subst hb2
          exact ⟨by simp [setStarted, hf0.2.1, initState], rfl⟩
        · simp [setStarted, hf0.2.1, initState]
      | true =>
        dsimp only at h
        have hf1 := hookStart_fields v w se cfg s0
        cases h2 : hookStart v w se cfg s0 with
        | mk r1 s1 =>
          rw [h2] at h hf1
          dsimp only at hf1
          cases r1 with
          | error e =>
            dsimp only at h
            injection h with hr hs
            subst hr
            subst hs
            refine ⟨?_, ?_⟩
            · intro b hb
              simp at hb
            · rw [hf1.2, hf0.2.1]
              exact Nat.zero_le 1
          | ok b1 =>
            cases b1 with
            | false =>
              dsimp only at h
              injection h with hr hs
              subst hr
              subst hs
              refine ⟨?_, ?_⟩
              · intro b hb
                injection hb with hb2
                subst hb2
                exact ⟨by simp [setStarted, hf1.2, hf0.2.1, initState], rfl⟩
              · simp [setStarted, hf1.2, hf0.2.1, initState]
            | true =>
              dsimp only at h
              have hf2 := run_sync_fields w cfg.exec_start_post s1
              cases h3 : run_sync_commands w s1 cfg.exec_start_post with
              | mk r2 s2 =>
                rw [h3] at h hf2
                dsimp only at hf2
                cases r2 with
                | error e =>
                  dsimp only at h
                  injection h with hr hs
                  subst hr
                  subst hs
                  refine ⟨?_, ?_⟩
                  · intro b hb
                    simp at hb
                  · rw [hf2.2.1, hf1.2, hf0.2.1]
                    exact Nat.zero_le 1
                | ok b2 =>
                  cases b2 with
                  | false =>
                    dsimp only at h
                    injection h with hr hs
                    subst hr
                    subst hs
                    refine ⟨?_, ?_⟩
                    · intro b hb
                      injection hb with hb2
                      subst hb2
                      exact ⟨by simp [setStarted, hf2.2.1, hf1.2, hf0.2.1, initState], rfl⟩
                    · simp [setStarted, hf2.2.1, hf1.2, hf0.2.1, initState]
                  | true =>
                    dsimp only at h
                    injection h with hr hs
                    subst hr
                    subst hs
                    refine ⟨?_, ?_⟩
                    · intro b hb
                      injection hb with hb2
                      subst hb2
                      exact ⟨by simp [setStarted, hf2.2.1, hf1.2, hf0.2.1, initState], rfl⟩
                    · simp [setStarted, hf2.2.1, hf1.2, hf0.2.1, initState]

/-- C10 witness: the failing-pre-hook run resolves `started` exactly once,
with the returned `False`. -/
theorem C10_started_resolved_once_witness :
    (start .oneshot wFail ⟨false⟩ cfgPreFail initState).2.startedSets = 1 ∧
    (start .oneshot wFail ⟨false⟩ cfgPreFail initState).2.started = some false := by
  have h := C10_started_resolved_once .oneshot wFail ⟨false⟩ cfgPreFail
    (start .oneshot wFail ⟨false⟩ cfgPreFail initState).1
    (start .oneshot wFail ⟨false⟩ cfgPreFail initState).2 rfl
  exact h.1 false rfl

end Unitd
